import Mathlib

/-!
Shallow embedding of the secure-chat repository's protocol core
(`src/chat_seguro/security.py`, `src/server.py`, `src/chat_seguro/client.py`).

Python integers are `Nat` (with explicit `% 2^32` where 32-bit wraparound
matters inside SHA-256); `bytes` values are `List Nat` of byte values;
fallible Python code returns `Except PyErr`.  Definitions follow the source
line by line; standard-library behaviour (hashlib, hmac, json) is modelled
from the documented CPython semantics.
-/

/-- The Python exceptions the embedded code can raise. -/
inductive PyErr where
  | typeError
  | keyError
  | attributeError
  | nameError (missing : String)
  | jsonDecodeError
  | unicodeEncodeError
  | exception (msg : String)
deriving Repr, DecidableEq

/-! ### Bytes, hex digests and UTF-8 (CPython semantics) -/

/-- Lowercase hex alphabet used by `bytes.hex()` / `HMAC.hexdigest()`. -/
def hexAlphabet : List Char := "0123456789abcdef".data

/-- Hex character of a nibble (indexes mod 16, so it is total). -/
def hexChar (n : Nat) : Char := hexAlphabet.getD (n % 16) '0'

/-- `bytes.hex()`: two lowercase hex characters per byte. -/
def bytesToHex (bs : List Nat) : String :=
  String.mk (bs.flatMap (fun b => [hexChar (b / 16), hexChar b]))

/-- UTF-8 encoding of one unicode scalar value, as `str.encode("utf-8")` does. -/
def utf8Char (c : Char) : List Nat :=
  let v := c.toNat
  if v < 0x80 then [v]
  else if v < 0x800 then [0xc0 + v / 64, 0x80 + v % 64]
  else if v < 0x10000 then [0xe0 + v / 4096, 0x80 + v / 64 % 64, 0x80 + v % 64]
  else [0xf0 + v / 262144, 0x80 + v / 4096 % 64, 0x80 + v / 64 % 64, 0x80 + v % 64]

/-- `str.encode("utf-8")`. -/
def utf8Encode (s : String) : List Nat := s.data.flatMap utf8Char

/-- `str.isascii()`: every character below U+0080. -/
def pyIsAscii (s : String) : Bool := s.data.all (fun c => c.toNat < 128)

/-! ### SHA-256 (hashlib.sha256), computed over `Nat` mod 2^32 -/

/-- Truncation to a 32-bit word. -/
def w32 (n : Nat) : Nat := n % 4294967296

/-- 32-bit right rotation. -/
def rotr32 (n x : Nat) : Nat :=
  w32 (Nat.lor (Nat.shiftRight x n) (Nat.shiftLeft x (32 - n)))

/-- 32-bit bitwise complement. -/
def not32 (x : Nat) : Nat := Nat.xor x 4294967295

def sha256Ch (x y z : Nat) : Nat := Nat.xor (Nat.land x y) (Nat.land (not32 x) z)

def sha256Maj (x y z : Nat) : Nat :=
  Nat.xor (Nat.land x y) (Nat.xor (Nat.land x z) (Nat.land y z))

def bigSigma0 (x : Nat) : Nat := Nat.xor (rotr32 2 x) (Nat.xor (rotr32 13 x) (rotr32 22 x))

def bigSigma1 (x : Nat) : Nat := Nat.xor (rotr32 6 x) (Nat.xor (rotr32 11 x) (rotr32 25 x))

def smallSigma0 (x : Nat) : Nat :=
  Nat.xor (rotr32 7 x) (Nat.xor (rotr32 18 x) (Nat.shiftRight x 3))

def smallSigma1 (x : Nat) : Nat :=
  Nat.xor (rotr32 17 x) (Nat.xor (rotr32 19 x) (Nat.shiftRight x 10))

/-- The 64 SHA-256 round constants. -/
def sha256K : List Nat :=
  [1116352408, 1899447441, 3049323471, 3921009573, 961987163,
   1508970993, 2453635748, 2870763221, 3624381080, 310598401,
   607225278, 1426881987, 1925078388, 2162078206, 2614888103,
   3248222580, 3835390401, 4022224774, 264347078, 604807628,
   770255983, 1249150122, 1555081692, 1996064986, 2554220882,
   2821834349, 2952996808, 3210313671, 3336571891, 3584528711,
   113926993, 338241895, 666307205, 773529912, 1294757372,
   1396182291, 1695183700, 1986661051, 2177026350, 2456956037,
   2730485921, 2820302411, 3259730800, 3345764771, 3516065817,
   3600352804, 4094571909, 275423344, 430227734, 506948616,
   659060556, 883997877, 958139571, 1322822218, 1537002063,
   1747873779, 1955562222, 2024104815, 2227730452, 2361852424,
   2428436474, 2756734187, 3204031479, 3329325298]

/-- The eight 32-bit hash registers. -/
structure Sha256Regs where
  ra : Nat
  rb : Nat
  rc : Nat
  rd : Nat
  re : Nat
  rf : Nat
  rg : Nat
  rh : Nat

/-- SHA-256 initial hash value. -/
def sha256Init : Sha256Regs :=
  ⟨1779033703, 3144134277, 1013904242,
   2773480762, 1359893119, 2600822924,
   528734635, 1541459225⟩

/-- One compression round, driven by a `(Kt, Wt)` pair. -/
def sha256Round (r : Sha256Regs) (kw : Nat × Nat) : Sha256Regs :=
  let t1 := w32 (r.rh + bigSigma1 r.re + sha256Ch r.re r.rf r.rg + kw.1 + kw.2)
  let t2 := w32 (bigSigma0 r.ra + sha256Maj r.ra r.rb r.rc)
  ⟨w32 (t1 + t2), r.ra, r.rb, r.rc, w32 (r.rd + t1), r.re, r.rf, r.rg⟩

/-- Big-endian 32-bit words from bytes (groups of four). -/
def bytesToWords : List Nat → List Nat
  | b0 :: b1 :: b2 :: b3 :: rest =>
      (((b0 * 256 + b1) * 256 + b2) * 256 + b3) :: bytesToWords rest
  | _ => []

/-- Extend a 16-word block schedule by `k` further words. -/
def extendSchedule : List Nat → Nat → List Nat
  | ws, 0 => ws
  | ws, k + 1 =>
      let n := ws.length
      let nw := w32 (smallSigma1 (ws.getD (n - 2) 0) + ws.getD (n - 7) 0 +
                     smallSigma0 (ws.getD (n - 15) 0) + ws.getD (n - 16) 0)
      extendSchedule (ws ++ [nw]) k

/-- Compress one 64-byte block into the running hash value. -/
def sha256Block (h : Sha256Regs) (block : List Nat) : Sha256Regs :=
  let ws := extendSchedule (bytesToWords block) 48
  let r := (sha256K.zip ws).foldl sha256Round h
  ⟨w32 (h.ra + r.ra), w32 (h.rb + r.rb), w32 (h.rc + r.rc), w32 (h.rd + r.rd),
   w32 (h.re + r.re), w32 (h.rf + r.rf), w32 (h.rg + r.rg), w32 (h.rh + r.rh)⟩

/-- Big-endian bytes of a number, fixed width. -/
def natToBytesBE : Nat → Nat → List Nat
  | 0, _ => []
  | k + 1, n => natToBytesBE k (n / 256) ++ [n % 256]

/-- SHA-256 padding: `0x80`, zeros, then the 64-bit bit length. -/
def sha256Pad (msg : List Nat) : List Nat :=
  let len := msg.length
  let zeros := (64 - (len + 9) % 64) % 64
  msg ++ 0x80 :: (List.replicate zeros 0 ++ natToBytesBE 8 (len * 8))

/-- Split into 64-byte blocks (fueled by the input length, so total). -/
def chunks64Aux : Nat → List Nat → List (List Nat)
  | 0, _ => []
  | _, [] => []
  | fuel + 1, l => l.take 64 :: chunks64Aux fuel (l.drop 64)

def chunks64 (l : List Nat) : List (List Nat) := chunks64Aux l.length l

/-- Big-endian bytes of one hash register. -/
def wordBytes (n : Nat) : List Nat :=
  [n / 16777216 % 256, n / 65536 % 256, n / 256 % 256, n % 256]

/-- `hashlib.sha256(msg).digest()`: the full hash, as 32 bytes. -/
def sha256 (msg : List Nat) : List Nat :=
  let fin := (chunks64 (sha256Pad msg)).foldl sha256Block sha256Init
  wordBytes fin.ra ++ wordBytes fin.rb ++ wordBytes fin.rc ++ wordBytes fin.rd ++
  wordBytes fin.re ++ wordBytes fin.rf ++ wordBytes fin.rg ++ wordBytes fin.rh

/-- HMAC-SHA256 per RFC 2104 (`hmac.new(key, msg, hashlib.sha256)`). -/
def hmacSha256 (key msg : List Nat) : List Nat :=
  let k1 := if 64 < key.length then sha256 key else key
  let k2 := k1 ++ List.replicate (64 - k1.length) 0
  let ipadKey := k2.map (fun b => Nat.xor b 0x36)
  let opadKey := k2.map (fun b => Nat.xor b 0x5c)
  sha256 (opadKey ++ sha256 (ipadKey ++ msg))

/-- SHA-256 digests are always exactly 32 bytes long. -/
theorem sha256_length (msg : List Nat) : (sha256 msg).length = 32 := by
  simp [sha256, wordBytes]

/-! ### `DiffieHellman` (security.py lines 12-57) -/

/-- The RFC 3526 2048-bit MODP prime `DiffieHellman.P` (security.py lines 20-32). -/
def dhP : Nat :=
  0xFFFFFFFFFFFFFFFFC90FDAA22168C234C4C6628B80DC1CD129024E088A67CC74020BBEA63B139B22514A08798E3404DDEF9519B3CD3A431B302B0A6DF25F14374FE1356D6D51C245E485B576625E7EC6F44C42E9A637ED6B0BFF5CB6F406B7EDEE386BFB5A899FA5AE9F24117C4B1FE649286651ECE45B3DC2007CB8A163BF0598DA48361C55D39A69163FA8FD24CF5F83655D23DCA3AD961C62F356208552BB9ED529077096966D670C354E4ABC9804F1746C08CA18217C32905E462E36CE3BE39E772C180E86039B2783A2EC07A28FB5C55DF06F4C52C9DE2BCBF6955817183995497CEA956AE515D2261898FA051015728E5A8AACAA68FFFFFFFFFFFFFFFF

/-- The generator `DiffieHellman.G` (security.py line 33). -/
def dhG : Nat := 2

/-- State of one `DiffieHellman` instance. -/
structure DiffieHellman where
  private_key : Nat
  public_key : Nat
  shared_secret : Option Nat

/-- `DiffieHellman.__init__` (security.py lines 35-39).  The call
`secrets.randbelow(self.P - 2)` is modelled by its result `r`, a uniform
draw from `[0, P-3]`; the constructor then sets `private_key = r + 1` and
`public_key = pow(G, private_key, P)`. -/
def DiffieHellman.init (r : Nat) : DiffieHellman :=
  { private_key := r + 1
    public_key := dhG ^ (r + 1) % dhP
    shared_secret := none }

/-- `DiffieHellman.get_public_key` (security.py lines 41-43). -/
def DiffieHellman.get_public_key (dh : DiffieHellman) : Nat := dh.public_key

/-- Key derivation `hashlib.sha256(str(shared).encode()).digest()` shared by
`compute_shared_secret` and `get_shared_secret` (security.py lines 51 and 57). -/
def deriveKey (shared : Nat) : List Nat := sha256 (utf8Encode (toString shared))

/-- `DiffieHellman.compute_shared_secret` (security.py lines 45-51): sets
`shared_secret = pow(peer_public_key, private_key, P)` on the instance and
returns the 32-byte derived key. -/
def DiffieHellman.compute_shared_secret (dh : DiffieHellman) (peer_public_key : Nat) :
    DiffieHellman × List Nat :=
  let s := peer_public_key ^ dh.private_key % dhP
  ({ dh with shared_secret := some s }, deriveKey s)

/-- `DiffieHellman.get_shared_secret` (security.py lines 53-57): raises when
`shared_secret is None`, otherwise returns the derived 32-byte key. -/
def DiffieHellman.get_shared_secret (dh : DiffieHellman) : Except PyErr (List Nat) :=
  match dh.shared_secret with
  | none => .error (.exception "Segredo compartilhado ainda não calculado!")
  | some s => .ok (deriveKey s)

/-! ### `MessageSecurity` (security.py lines 60-122) -/

/-- State of one `MessageSecurity` instance: just the 32-byte shared key. -/
structure MessageSecurity where
  shared_key : List Nat

/-- `MessageSecurity.__init__` (security.py lines 66-71): `shared_key or
secrets.token_bytes(32)` — a missing or empty (falsy) key is replaced by a
fresh random one, modelled by its value `rand`. -/
def MessageSecurity.init (key : Option (List Nat)) (rand : List Nat) : MessageSecurity :=
  match key with
  | some k => if k = [] then ⟨rand⟩ else ⟨k⟩
  | none => ⟨rand⟩

/-- `MessageSecurity.set_shared_key` (security.py lines 73-75). -/
def MessageSecurity.set_shared_key (_sec : MessageSecurity) (key : List Nat) :
    MessageSecurity := ⟨key⟩

/-- `MessageSecurity.create_hmac` (security.py lines 77-87):
`hmac.new(shared_key, message.encode("utf-8"), hashlib.sha256).hexdigest()`. -/
def MessageSecurity.create_hmac (sec : MessageSecurity) (message : String) : String :=
  bytesToHex (hmacSha256 sec.shared_key (utf8Encode message))

/-- `hmac.compare_digest(a, b)` on two `str` arguments (CPython): raises
`TypeError` unless both strings are pure ASCII, otherwise returns their
(constant-time) equality. -/
def compare_digest (a b : String) : Except PyErr Bool :=
  if pyIsAscii a && pyIsAscii b then .ok (a == b) else .error .typeError

/-- `MessageSecurity.verify_hmac` (security.py lines 89-95): recomputes the
tag and compares with `hmac.compare_digest`. -/
def MessageSecurity.verify_hmac (sec : MessageSecurity) (message received_hmac : String) :
    Except PyErr Bool :=
  compare_digest (sec.create_hmac message) received_hmac

/-! ### JSON (Python `json` module semantics)

`json.dumps` with the default `ensure_ascii=True` and separators, and
`json.loads` in its default strict mode.  Numbers keep their source lexeme
(the embedded code never computes with envelope numbers), and objects keep
members in parse order; subscripting resolves to the last binding of a key,
as a Python `dict` built from duplicate keys would.  A parsed string whose
code units include a lone surrogate (which CPython keeps in the `str`) has
no Lean `String` counterpart and is carried by the `surr` constructor. -/

inductive Json where
  | null
  | bool (b : Bool)
  | num (lexeme : String)
  | str (s : String)
  | surr (codes : List Nat)
  | arr (items : List Json)
  | obj (entries : List (String × Json))

/-- `d[key]` on the dict a parsed object denotes: last binding wins. -/
def objGet (members : List (String × Json)) (key : String) : Option Json :=
  members.foldl (fun acc kv => if kv.1 = key then some kv.2 else acc) none

/-- The brace characters, named to keep them out of string literals. -/
def lbrace : Char := Char.ofNat 123

def rbrace : Char := Char.ofNat 125

/-- Four hex characters of a code unit (`\uXXXX` payload, lowercase). -/
def toHex4 (n : Nat) : List Char :=
  [hexChar (n / 4096), hexChar (n / 256), hexChar (n / 16), hexChar n]

/-- `json.dumps` escaping of one character under `ensure_ascii=True`:
printable ASCII other than `"` and `\` passes through, the short escapes
cover the usual control characters, everything else becomes `\uXXXX`
(a surrogate pair for astral characters). -/
def escapeChar (c : Char) : List Char :=
  let v := c.toNat
  if c = '"' then ['\\', '"']
  else if c = '\\' then ['\\', '\\']
  else if v = 8 then ['\\', 'b']
  else if v = 9 then ['\\', 't']
  else if v = 10 then ['\\', 'n']
  else if v = 12 then ['\\', 'f']
  else if v = 13 then ['\\', 'r']
  else if v < 0x20 then '\\' :: 'u' :: toHex4 v
  else if v < 0x7f then [c]
  else if v < 0x10000 then '\\' :: 'u' :: toHex4 v
  else '\\' :: 'u' :: toHex4 (0xd800 + (v - 0x10000) / 0x400) ++
       '\\' :: 'u' :: toHex4 (0xdc00 + (v - 0x10000) % 0x400)

def escapeList (cs : List Char) : List Char := cs.flatMap escapeChar

def escapeString (s : String) : String := String.mk (escapeList s.data)

/-- `json.dumps({"msg": m, "hmac": mac})`: Python dicts keep insertion
order and the default separators are `", "` and `": "`. -/
def dumpsEnvelope (m mac : String) : String :=
  "\x7b\"msg\": \"" ++ escapeString m ++ "\", \"hmac\": \"" ++ escapeString mac ++ "\"\x7d"

/-- JSON whitespace accepted by the Python scanner. -/
def jsonWs (c : Char) : Bool := c == ' ' || c == '\t' || c == '\n' || c == '\r'

def skipWs : List Char → List Char
  | [] => []
  | c :: rest => if jsonWs c then skipWs rest else c :: rest

def isDigitCh (c : Char) : Bool := 48 ≤ c.toNat && c.toNat ≤ 57

def takeDigits : List Char → List Char × List Char
  | [] => ([], [])
  | c :: rest =>
      if isDigitCh c then
        let p := takeDigits rest
        (c :: p.1, p.2)
      else ([], c :: rest)

def hexVal (c : Char) : Option Nat :=
  if 48 ≤ c.toNat ∧ c.toNat ≤ 57 then some (c.toNat - 48)
  else if 97 ≤ c.toNat ∧ c.toNat ≤ 102 then some (c.toNat - 87)
  else if 65 ≤ c.toNat ∧ c.toNat ≤ 70 then some (c.toNat - 55)
  else none

def parseHex4 (a b c d : Char) : Option Nat :=
  match hexVal a, hexVal b, hexVal c, hexVal d with
  | some x, some y, some z, some w => some (((x * 16 + y) * 16 + z) * 16 + w)
  | _, _, _, _ => none

/-- Short (single-character) string escapes. -/
def unescapeChar : Char → Option Char
  | '"' => some '"'
  | '\\' => some '\\'
  | '/' => some '/'
  | 'b' => some (Char.ofNat 8)
  | 'f' => some (Char.ofNat 12)
  | 'n' => some '\n'
  | 'r' => some (Char.ofNat 13)
  | 't' => some '\t'
  | _ => none

/-- Decode one escape sequence (the characters after a `\`) to the code
unit it denotes: a short escape, a `\uXXXX` escape, or a surrogate-pair
escape.  Exactly as CPython's decoder does, a high-surrogate escape
combines with an immediately following low-surrogate escape; otherwise the
lone surrogate code unit is kept in the decoded string. -/
def escLookahead : List Char → Option (Nat × List Char)
  | 'u' :: a :: b :: d :: e :: rest =>
    match parseHex4 a b d e with
    | none => none
    | some n =>
      if 0xd800 ≤ n ∧ n < 0xdc00 then
        match rest with
        | '\\' :: 'u' :: a2 :: b2 :: d2 :: e2 :: rest2 =>
          match parseHex4 a2 b2 d2 e2 with
          | some n2 =>
            if 0xdc00 ≤ n2 ∧ n2 ≤ 0xdfff then
              some (0x10000 + (n - 0xd800) * 0x400 + (n2 - 0xdc00), rest2)
            else some (n, rest)
          | none => some (n, rest)
        | _ => some (n, rest)
      else some (n, rest)
  | ec :: rest =>
    match unescapeChar ec with
    | some ch => some (ch.toNat, rest)
    | none => none
  | [] => none

/-- Scan a JSON string after its opening quote, decoding escapes to code
units; strict mode rejects raw control characters.  Fueled: every step
consumes at least one input character, so fuel equal to the input length
always suffices. -/
def psb : Nat → List Char → Option (List Nat × List Char)
  | 0, _ => none
  | fuel + 1, l =>
    match l with
    | [] => none
    | c :: rest =>
      if c = '"' then some ([], rest)
      else if c = '\\' then
        match escLookahead rest with
        | some (code, rest2) =>
          match psb fuel rest2 with
          | some (cs, r) => some (code :: cs, r)
          | none => none
        | none => none
      else if c.toNat < 0x20 then none
      else
        match psb fuel rest with
        | some (cs, r) => some (c.toNat :: cs, r)
        | none => none

def parseStringBody (l : List Char) : Option (List Nat × List Char) :=
  psb l.length l

/-- Rebuild a decoded JSON string from its code units: all scalar values
give a Lean `String`; a string containing a lone surrogate (which CPython
keeps in the `str`) gets the `surr` constructor carrying the raw units. -/
def strOfCodes (codes : List Nat) : Json :=
  if codes.all (fun n => n < 0xd800 || 0xdfff < n) then
    .str (String.mk (codes.map Char.ofNat))
  else .surr codes

/-- Object keys as Lean strings.  A lone surrogate unit in a key (which a
Lean `String` cannot hold) maps through `Char.ofNat` to U+0000; such a key
can never collide with the ASCII protocol keys the embedded code looks
up (`msg`, `hmac`, `type`, `public_key`). -/
def keyOfCodes (codes : List Nat) : String := String.mk (codes.map Char.ofNat)

/-- Optional fraction part of a number lexeme (regex group `(\.\d+)?`:
a dot without digits is left unconsumed). -/
def parseFrac (l : List Char) : List Char × List Char :=
  match l with
  | '.' :: r =>
      let p := takeDigits r
      if p.1 = [] then ([], l) else ('.' :: p.1, p.2)
  | _ => ([], l)

/-- Optional exponent part of a number lexeme (regex group `([eE][-+]?\d+)?`). -/
def parseExp (l : List Char) : List Char × List Char :=
  match l with
  | c :: r =>
    if c = 'e' ∨ c = 'E' then
      match r with
      | s :: r2 =>
        if s = '+' ∨ s = '-' then
          let p := takeDigits r2
          if p.1 = [] then ([], l) else (c :: s :: p.1, p.2)
        else
          let p := takeDigits r
          if p.1 = [] then ([], l) else (c :: p.1, p.2)
      | [] => ([], l)
    else ([], l)
  | [] => ([], l)

/-- A number lexeme per the Python scanner's regex: `-?(0|[1-9]\d*)` then
optional fraction and exponent.  The lexeme is kept verbatim. -/
def parseNumber (l : List Char) : Option (Json × List Char) :=
  let sp : List Char × List Char := match l with | '-' :: r => (['-'], r) | _ => ([], l)
  match sp.2 with
  | c :: rest =>
    if c = '0' then
      let f := parseFrac rest
      let e := parseExp f.2
      some (.num (String.mk (sp.1 ++ '0' :: (f.1 ++ e.1))), e.2)
    else if isDigitCh c then
      let p := takeDigits rest
      let f := parseFrac p.2
      let e := parseExp f.2
      some (.num (String.mk (sp.1 ++ c :: (p.1 ++ (f.1 ++ e.1)))), e.2)
    else none
  | [] => none

mutual

/-- One JSON value, fueled (the Python scanner recurses on the text). -/
def parseValue : Nat → List Char → Option (Json × List Char)
  | 0, _ => none
  | fuel + 1, l =>
    match skipWs l with
    | [] => none
    | c :: rest =>
      if c = '"' then
        match parseStringBody rest with
        | some (cs, r) => some (strOfCodes cs, r)
        | none => none
      else if c = lbrace then
        match skipWs rest with
        | c2 :: rest2 =>
          if c2 = rbrace then some (.obj [], rest2)
          else
            match parseMembers fuel (c2 :: rest2) with
            | some (ms, r) => some (.obj ms, r)
            | none => none
        | [] => none
      else if c = '[' then
        match skipWs rest with
        | c2 :: rest2 =>
          if c2 = ']' then some (.arr [], rest2)
          else
            match parseElems fuel (c2 :: rest2) with
            | some (es, r) => some (.arr es, r)
            | none => none
        | [] => none
      else
        match c, rest with
        | 't', 'r' :: 'u' :: 'e' :: r => some (.bool true, r)
        | 'f', 'a' :: 'l' :: 's' :: 'e' :: r => some (.bool false, r)
        | 'n', 'u' :: 'l' :: 'l' :: r => some (.null, r)
        | 'N', 'a' :: 'N' :: r => some (.num "NaN", r)
        | 'I', 'n' :: 'f' :: 'i' :: 'n' :: 'i' :: 't' :: 'y' :: r => some (.num "Infinity", r)
        | '-', 'I' :: 'n' :: 'f' :: 'i' :: 'n' :: 'i' :: 't' :: 'y' :: r =>
            some (.num "-Infinity", r)
        | c, rest => parseNumber (c :: rest)

/-- Members of a non-empty object, positioned at the first key quote. -/
def parseMembers : Nat → List Char → Option (List (String × Json) × List Char)
  | 0, _ => none
  | fuel + 1, l =>
    match l with
    | c :: rest =>
      if c = '"' then
        match parseStringBody rest with
        | some (keyCodes, r1) =>
          match skipWs r1 with
          | ':' :: r2 =>
            match parseValue fuel r2 with
            | some (v, r3) =>
              match skipWs r3 with
              | ',' :: r4 =>
                match parseMembers fuel (skipWs r4) with
                | some (ms, r5) => some ((keyOfCodes keyCodes, v) :: ms, r5)
                | none => none
              | c5 :: r5 =>
                if c5 = rbrace then some ([(keyOfCodes keyCodes, v)], r5) else none
              | [] => none
            | none => none
          | _ => none
        | none => none
      else none
    | [] => none

/-- Elements of a non-empty array, positioned at the first element. -/
def parseElems : Nat → List Char → Option (List Json × List Char)
  | 0, _ => none
  | fuel + 1, l =>
    match parseValue fuel l with
    | some (v, r1) =>
      match skipWs r1 with
      | ',' :: r2 =>
        match parseElems fuel r2 with
        | some (es, r3) => some (v :: es, r3)
        | none => none
      | c :: r2 => if c = ']' then some ([v], r2) else none
      | [] => none
    | none => none

end

/-- `json.loads`: parse one value and require only whitespace after it. -/
def loads (s : String) : Option Json :=
  match parseValue (s.length + 1) s.data with
  | some (j, rest) => if skipWs rest = [] then some j else none
  | none => none

/-! ### Envelope packaging (security.py lines 97-122) -/

/-- `MessageSecurity.package_message` (security.py lines 97-107):
`json.dumps({"msg": message, "hmac": create_hmac(message)})`. -/
def MessageSecurity.package_message (sec : MessageSecurity) (message : String) : String :=
  dumpsEnvelope message (sec.create_hmac message)

/-- `MessageSecurity.unpackage_message` (security.py lines 109-122).  The
`except` clause catches only `json.JSONDecodeError` and `KeyError`; a parsed
value that is not a dict raises `TypeError` at the subscript, a `msg` string
containing a lone surrogate raises `UnicodeEncodeError` inside `create_hmac`
(`.encode("utf-8")` rejects surrogates), a non-string `msg` raises
`AttributeError` there (`.encode` on a non-str), and an `hmac` that is not a
string — or is a string with a lone surrogate, hence non-ASCII — raises
`TypeError` inside `hmac.compare_digest`; none of these are caught. -/
def MessageSecurity.unpackage_message (sec : MessageSecurity) (package : String) :
    Except PyErr (Option String × Bool) :=
  match loads package with
  | none => .ok (none, false)
  | some (.obj l) =>
    match objGet l "msg" with
    | none => .ok (none, false)
    | some mv =>
      match objGet l "hmac" with
      | none => .ok (none, false)
      | some hv =>
        match mv, hv with
        | .str m, .str h =>
          match sec.verify_hmac m h with
          | .ok b => .ok (some m, b)
          | .error e => .error e
        | .str _, _ => .error .typeError
        | .surr _, _ => .error .unicodeEncodeError
        | _, _ => .error .attributeError
  | some _ => .error .typeError

/-! ### `SecureConnectionManager` (security.py lines 125-176)

Python `dict` keys are heterogeneous: the registries are keyed by
`"ip:port"` strings everywhere they are written, but `server.handle_peer`
reads them with the SSL socket object itself, so the key type is the sum of
the two. -/

inductive PyKey where
  | str (s : String)
  | sock (id : Nat)
deriving DecidableEq, Repr

/-- `d.get(k)` / `d[k]` on a Python dict (one binding per key). -/
def dictGet {V : Type} : List (PyKey × V) → PyKey → Option V
  | [], _ => none
  | kv :: rest, k => if kv.1 = k then some kv.2 else dictGet rest k

/-- `d[k] = v`: overwrite the existing binding or append a new one. -/
def dictSet {V : Type} : List (PyKey × V) → PyKey → V → List (PyKey × V)
  | [], k, v => [(k, v)]
  | kv :: rest, k, v => if kv.1 = k then (k, v) :: rest else kv :: dictSet rest k v

/-- `d.pop(k, None)`: drop the binding if present. -/
def dictPop {V : Type} (l : List (PyKey × V)) (k : PyKey) : List (PyKey × V) :=
  l.filter (fun kv => kv.1 ≠ k)

structure SecureConnectionManager where
  peer_keys : List (PyKey × MessageSecurity)
  peer_dh : List (PyKey × DiffieHellman)

/-- `SecureConnectionManager.__init__` (security.py lines 131-134). -/
def SecureConnectionManager.empty : SecureConnectionManager := ⟨[], []⟩

/-- `initiate_key_exchange` (security.py lines 136-143): create a fresh
`DiffieHellman` (random draw `r`), store it under the peer address, return
its public key. -/
def SecureConnectionManager.initiate_key_exchange (mgr : SecureConnectionManager)
    (peer_addr : String) (r : Nat) : SecureConnectionManager × Nat :=
  let dh := DiffieHellman.init r
  ({ mgr with peer_dh := dictSet mgr.peer_dh (.str peer_addr) dh }, dh.get_public_key)

/-- `complete_key_exchange` (security.py lines 145-159): ensure a
`DiffieHellman` exists for the peer (fresh draw `r` if not), compute the
shared secret on it, and install `MessageSecurity(shared_key)`. -/
def SecureConnectionManager.complete_key_exchange (mgr : SecureConnectionManager)
    (peer_addr : String) (peer_public_key : Nat) (r : Nat) : SecureConnectionManager :=
  let mgr1 :=
    if (dictGet mgr.peer_dh (.str peer_addr)).isSome then mgr
    else { mgr with peer_dh := dictSet mgr.peer_dh (.str peer_addr) (DiffieHellman.init r) }
  match dictGet mgr1.peer_dh (.str peer_addr) with
  | some dh =>
    let p := dh.compute_shared_secret peer_public_key
    { peer_dh := dictSet mgr1.peer_dh (.str peer_addr) p.1
      peer_keys := dictSet mgr1.peer_keys (.str peer_addr) (MessageSecurity.init (some p.2) []) }
  | none => mgr1

/-- `get_security` (security.py lines 161-163): `self.peer_keys.get(peer_addr)`.
The argument is whatever the caller passes — `server.handle_peer` passes the
SSL socket object, `client.send_msg` passes the address string. -/
def SecureConnectionManager.get_security (mgr : SecureConnectionManager) (k : PyKey) :
    Option MessageSecurity :=
  dictGet mgr.peer_keys k

/-- `has_secure_connection` (security.py lines 165-167). -/
def SecureConnectionManager.has_secure_connection (mgr : SecureConnectionManager)
    (peer_addr : String) : Bool :=
  (dictGet mgr.peer_keys (.str peer_addr)).isSome

/-- `remove_peer` (security.py lines 169-172). -/
def SecureConnectionManager.remove_peer (mgr : SecureConnectionManager)
    (peer_addr : String) : SecureConnectionManager :=
  ⟨dictPop mgr.peer_keys (.str peer_addr), dictPop mgr.peer_dh (.str peer_addr)⟩

/-! ### Server receive loop and cleanup (server.py lines 141-191) -/

/-- Observable actions of one receive-loop iteration. -/
inductive SrvEvent where
  | consolePrint (s : String)
  | logWrite (s : String)
deriving DecidableEq, Repr

/-- `f'\n\x7b"!" * 70\x7d'` printed at server.py line 171. -/
def alertBang : String := String.mk ('\n' :: List.replicate 70 '!')

/-- server.py line 143 is a comment, so the local name `peer_addr` is never
assigned inside `handle_peer`. -/
def peer_addr_assigned : Bool := false

/-- One iteration of `Server.handle_peer`'s receive loop (server.py lines
146-184) on decoded packet `msg_data`, arriving on socket object `connId`.
Line 160 looks the session up by the socket object: `get_security(conn)`.
In the integrity-alert branch (lines 171-177) the first three prints run and
then the f-string of line 174 reads the unassigned name `peer_addr`; the
bare `except:` of line 178 catches that `NameError` and falls back to
printing and logging the raw packet. -/
def Server.handle_peer_step (mgr : SecureConnectionManager) (connId : Nat)
    (msg_data : String) : List SrvEvent :=
  if msg_data = "__DISCONNECT__" then
    [.consolePrint "<SISTEMA>: Peer encerrou a conexão"]
  else
    match mgr.get_security (.sock connId) with
    | some security =>
      match security.unpackage_message msg_data with
      | .ok (some m, true) => [.consolePrint m, .logWrite m]
      | .ok (none, true) => [.consolePrint "None", .logWrite "None"]
      | .ok (_, false) =>
          [.consolePrint alertBang,
           .consolePrint "<SISTEMA>:   ALERTA DE SEGURANÇA ",
           .consolePrint "<SISTEMA>: Mensagem com INTEGRIDADE VIOLADA!",
           .consolePrint msg_data,
           .logWrite msg_data]
      | .error _ => [.consolePrint msg_data, .logWrite msg_data]
    | none => [.consolePrint msg_data]

/-- Per-connection state the cleanup acts on: the socket, the shared
`peersdb.peers` set, and the shared `secure_manager`. -/
structure PeerConnState where
  socketClosed : Bool
  peers : List String
  mgr : SecureConnectionManager

/-- The `finally` block of `Server.handle_peer` (server.py lines 188-191):
`conn.close()` runs, then `peersdb.remove(peer_addr)` evaluates the name
`peer_addr` — unassigned, since line 143 is commented out — so a
`NameError` aborts the block before either registry is touched. -/
def Server.handle_peer_cleanup (st : PeerConnState) (peer_addr : String) :
    PeerConnState × Except PyErr Unit :=
  let st1 : PeerConnState := { st with socketClosed := true }
  if peer_addr_assigned then
    ({ socketClosed := true
       peers := st1.peers.filter (fun p => p ≠ peer_addr)
       mgr := st1.mgr.remove_peer peer_addr }, .ok ())
  else
    (st1, .error (.nameError "peer_addr"))

/-! ### Client key exchange (client.py lines 101-148) -/

/-- `Client._exchange_keys` (client.py lines 119-148) given the peer's
response packet `response` and the fresh draw `r` of the local
`DiffieHellman`.  `initiate_key_exchange` always runs first; `json.loads`
or subscript failures are printed and re-raised (line 148); a response
whose `type` is present but differs from `"DH_KEY_EXCHANGE"` (or is not a
string) skips the `if` body and returns normally with no session key
installed.  No failure path removes the `peer_dh` entry. -/
def Client.exchange_keys (mgr : SecureConnectionManager) (peer_addr : String)
    (r : Nat) (response : String) : SecureConnectionManager × Except PyErr Unit :=
  let mgr1 := (mgr.initiate_key_exchange peer_addr r).1
  match loads response with
  | none => (mgr1, .error .jsonDecodeError)
  | some (.obj l) =>
    match objGet l "type" with
    | none => (mgr1, .error .keyError)
    | some (.str ts) =>
      if ts = "DH_KEY_EXCHANGE" then
        match objGet l "public_key" with
        | none => (mgr1, .error .keyError)
        | some (.num lex) =>
          match lex.toNat? with
          | some n => (mgr1.complete_key_exchange peer_addr n 0, .ok ())
          | none => (mgr1, .error .typeError)
        | some _ => (mgr1, .error .typeError)
      else (mgr1, .ok ())
    | some _ => (mgr1, .ok ())
  | some _ => (mgr1, .error .typeError)

/-- State `Client.connect` (client.py lines 68-117) updates after the key
exchange: the active-connection set and `peersdb`. -/
structure ClientState where
  connections : List Nat
  peers : List String

/-- The tail of `Client.connect` (client.py lines 99-117): a raising
exchange is caught by the generic `except Exception` handler, which only
prints — the connection is not registered, and no session state is cleaned
up.  A non-raising exchange proceeds to `update_connections` and
`peersdb.add`. -/
def Client.connect_model (cst : ClientState) (mgr : SecureConnectionManager)
    (peer_addr : String) (connId : Nat) (r : Nat) (response : String) :
    ClientState × SecureConnectionManager × Except PyErr Unit :=
  let q := Client.exchange_keys mgr peer_addr r response
  match q.2 with
  | .ok _ =>
    ({ connections := cst.connections ++ [connId]
       peers := if peer_addr ∈ cst.peers then cst.peers else cst.peers ++ [peer_addr] },
     q.1, .ok ())
  | .error e => (cst, q.1, .error e)

/-! ### Helper lemmas: hex digits, ASCII digests -/

theorem hexChar_toNat_lt (n : Nat) : (hexChar n).toNat < 128 := by
  have h : n % 16 < 16 := Nat.mod_lt _ (by omega)
  unfold hexChar
  generalize n % 16 = m at h
  interval_cases m <;> decide

theorem hexVal_hexChar (n : Nat) : hexVal (hexChar n) = some (n % 16) := by
  have h : n % 16 < 16 := Nat.mod_lt _ (by omega)
  unfold hexChar hexVal
  generalize hm : n % 16 = m at h ⊢
  interval_cases m <;> decide

theorem parseHex4_toHex4 (n : Nat) (h : n < 65536) :
    parseHex4 (hexChar (n / 4096)) (hexChar (n / 256)) (hexChar (n / 16)) (hexChar n) =
      some n := by
  simp only [parseHex4, hexVal_hexChar]
  congr 1
  omega

/-- Hex digests are pure ASCII (needed for `hmac.compare_digest` on `str`). -/
theorem bytesToHex_ascii (bs : List Nat) : pyIsAscii (bytesToHex bs) = true := by
  induction bs with
  | nil => decide
  | cons b bs ih =>
    simp only [pyIsAscii, bytesToHex, List.flatMap_cons, List.all_append, List.all_cons,
      List.all_nil] at ih ⊢
    simp only [ih, Bool.and_true, Bool.and_self]
    simp [decide_eq_true_iff, hexChar_toNat_lt]

theorem create_hmac_ascii (sec : MessageSecurity) (m : String) :
    pyIsAscii (sec.create_hmac m) = true := by
  unfold MessageSecurity.create_hmac
  exact bytesToHex_ascii _

/-! ### C1, C8, C9: the Diffie-Hellman primitive -/

/-- C1: DH symmetry.  For any two independently generated instances
`A = init ra` and `B = init rb`, `A.compute_shared_secret(B.public_key)`
equals `B.compute_shared_secret(A.public_key)`; moreover for every instance
the result is the deterministic function `deriveKey (pub ^ priv % P)` of
(own private exponent, peer public value), and is 32 bytes long. -/
theorem dh_symmetry (ra rb : Nat) :
    ((DiffieHellman.init ra).compute_shared_secret (DiffieHellman.init rb).public_key).2 =
      ((DiffieHellman.init rb).compute_shared_secret (DiffieHellman.init ra).public_key).2 ∧
    (∀ (dh : DiffieHellman) (p : Nat),
      (dh.compute_shared_secret p).2 = deriveKey (p ^ dh.private_key % dhP) ∧
      ((dh.compute_shared_secret p).2).length = 32) := by
  constructor
  · show deriveKey ((dhG ^ (rb + 1) % dhP) ^ (ra + 1) % dhP) =
      deriveKey ((dhG ^ (ra + 1) % dhP) ^ (rb + 1) % dhP)
    congr 1
    rw [← Nat.pow_mod, ← Nat.pow_mod, ← pow_mul, ← pow_mul, Nat.mul_comm]
  · intro dh p
    exact ⟨rfl, sha256_length _⟩

set_option maxRecDepth 10000 in
/-- C8: key generation.  `secrets.randbelow(P - 2)` yields `r < P - 2`; the
private exponent is `r + 1`, hence always in `[1, P - 2]` (and the map
`r ↦ r + 1` is a bijection from the draw range onto that interval, so a
uniform draw gives a uniform exponent); the public value is
`G ^ private mod P` with `G = 2` and `P` the fixed 2048-bit MODP prime. -/
theorem dh_keygen (r : Nat) (h : r < dhP - 2) :
    (DiffieHellman.init r).private_key = r + 1 ∧
    1 ≤ (DiffieHellman.init r).private_key ∧
    (DiffieHellman.init r).private_key ≤ dhP - 2 ∧
    (DiffieHellman.init r).public_key =
      dhG ^ (DiffieHellman.init r).private_key % dhP ∧
    dhG = 2 ∧ 2 ^ 2047 < dhP ∧ dhP < 2 ^ 2048 := by
  refine ⟨rfl, Nat.le_add_left _ _, ?_, rfl, rfl, by decide, by decide⟩
  show r + 1 ≤ dhP - 2
  exact h

set_option maxRecDepth 10000 in
/-- Witness for `dh_keygen` at the concrete draw `r = 0`. -/
theorem dh_keygen_witness :
    (0 : Nat) < dhP - 2 ∧
    ((DiffieHellman.init 0).private_key = 0 + 1 ∧
     1 ≤ (DiffieHellman.init 0).private_key ∧
     (DiffieHellman.init 0).private_key ≤ dhP - 2 ∧
     (DiffieHellman.init 0).public_key =
       dhG ^ (DiffieHellman.init 0).private_key % dhP ∧
     dhG = 2 ∧ 2 ^ 2047 < dhP ∧ dhP < 2 ^ 2048) :=
  ⟨by decide, dh_keygen 0 (by decide)⟩

/-- C9: fail-fast contract of `get_shared_secret`.  A freshly constructed
instance (any draw `r`) has no shared secret and the call raises; after
`compute_shared_secret` the call returns exactly the derived 32-byte key. -/
theorem dh_get_shared_secret_contract (r : Nat) (dh : DiffieHellman) (p : Nat) :
    (DiffieHellman.init r).get_shared_secret =
      .error (.exception "Segredo compartilhado ainda não calculado!") ∧
    ((dh.compute_shared_secret p).1).get_shared_secret =
      .ok ((dh.compute_shared_secret p).2) ∧
    ((dh.compute_shared_secret p).2).length = 32 :=
  ⟨rfl, rfl, sha256_length _⟩

/-! ### C10: session-registry invariant -/

theorem dictGet_dictSet {V : Type} (l : List (PyKey × V)) (k k' : PyKey) (v : V) :
    dictGet (dictSet l k v) k' = if k = k' then some v else dictGet l k' := by
  induction l with
  | nil => by_cases h : k = k' <;> simp [dictSet, dictGet, h]
  | cons kv rest ih =>
    by_cases hk : kv.1 = k
    · by_cases h : k = k'
      · simp [dictSet, dictGet, hk, h]
      · have hkv : kv.1 ≠ k' := by rw [hk]; exact h
        simp [dictSet, dictGet, hk, h, hkv]
    · by_cases h : k = k'
      · subst h
        simp [dictSet, dictGet, hk, ih]
      · simp [dictSet, dictGet, hk, h, ih]

theorem dictGet_dictPop {V : Type} (l : List (PyKey × V)) (k k' : PyKey) :
    dictGet (dictPop l k) k' = if k = k' then none else dictGet l k' := by
  induction l with
  | nil => simp [dictPop, dictGet]
  | cons kv rest ih =>
    by_cases hk : kv.1 = k
    · by_cases h : k = k'
      · simp [dictPop, List.filter_cons, dictGet, hk, h] at ih ⊢
        exact ih
      · have hkv : kv.1 ≠ k' := by rw [hk]; exact h
        simp [dictPop, List.filter_cons, dictGet, hk, h, hkv] at ih ⊢
        exact ih
    · by_cases h : k = k'
      · subst h
        simp [dictPop, List.filter_cons, dictGet, hk, Ne.symm hk] at ih ⊢
        exact ih
      · simp [dictPop, List.filter_cons, dictGet, hk, h] at ih ⊢
        by_cases hkv : kv.1 = k' <;> simp [hkv, ih]

/-- The implicit registry invariant: every peer with a completed
`MessageSecurity` entry in `peer_keys` also has a `DiffieHellman` entry in
`peer_dh`. -/
def SecureConnectionManager.Inv (mgr : SecureConnectionManager) : Prop :=
  ∀ k : PyKey, (dictGet mgr.peer_keys k).isSome = true →
    (dictGet mgr.peer_dh k).isSome = true

/-- C10: the invariant holds for a fresh manager and is preserved by
`initiate_key_exchange`, `complete_key_exchange` and `remove_peer`. -/
theorem scm_registry_invariant :
    SecureConnectionManager.Inv SecureConnectionManager.empty ∧
    (∀ (mgr : SecureConnectionManager) (addr : String) (r : Nat),
      mgr.Inv → ((mgr.initiate_key_exchange addr r).1).Inv) ∧
    (∀ (mgr : SecureConnectionManager) (addr : String) (pk r : Nat),
      mgr.Inv → (mgr.complete_key_exchange addr pk r).Inv) ∧
    (∀ (mgr : SecureConnectionManager) (addr : String),
      mgr.Inv → (mgr.remove_peer addr).Inv) := by
  refine ⟨?_, ?_, ?_, ?_⟩
  · intro k hk
    simp [SecureConnectionManager.empty, dictGet] at hk
  · intro mgr addr r hinv k hk
    unfold SecureConnectionManager.initiate_key_exchange
    simp only [dictGet_dictSet]
    by_cases h : PyKey.str addr = k
    · simp [h]
    · simp only [if_neg h]
      exact hinv k hk
  · intro mgr addr pk r hinv k hk
    by_cases hd : (dictGet mgr.peer_dh (.str addr)).isSome
    · obtain ⟨dh, hdh⟩ := Option.isSome_iff_exists.mp hd
      have hc : mgr.complete_key_exchange addr pk r =
          { peer_keys := dictSet mgr.peer_keys (.str addr)
              (MessageSecurity.init (some (dh.compute_shared_secret pk).2) [])
            peer_dh := dictSet mgr.peer_dh (.str addr)
              (dh.compute_shared_secret pk).1 } := by
        simp [SecureConnectionManager.complete_key_exchange, hd, hdh]
      rw [hc] at hk ⊢
      simp only [dictGet_dictSet] at hk ⊢
      by_cases h : PyKey.str addr = k
      · simp [h]
      · simp only [if_neg h] at hk ⊢
        exact hinv k hk
    · have hc : mgr.complete_key_exchange addr pk r =
          { peer_keys := dictSet mgr.peer_keys (.str addr)
              (MessageSecurity.init
                (some ((DiffieHellman.init r).compute_shared_secret pk).2) [])
            peer_dh := dictSet (dictSet mgr.peer_dh (.str addr) (DiffieHellman.init r))
              (.str addr) ((DiffieHellman.init r).compute_shared_secret pk).1 } := by
        simp [SecureConnectionManager.complete_key_exchange, hd, dictGet_dictSet]
      rw [hc] at hk ⊢
      simp only [dictGet_dictSet] at hk ⊢
      by_cases h : PyKey.str addr = k
      · simp [h]
      · simp only [if_neg h] at hk ⊢
        exact hinv k hk
  · intro mgr addr hinv k hk
    unfold SecureConnectionManager.remove_peer at hk ⊢
    simp only [dictGet_dictPop] at hk ⊢
    by_cases h : PyKey.str addr = k
    · simp [h] at hk
    · simp only [if_neg h] at hk ⊢
      exact hinv k hk

/-- Witness for `scm_registry_invariant`: the preservation parts applied in
a concrete chain from the empty manager. -/
theorem scm_registry_invariant_witness :
    SecureConnectionManager.Inv
      ((SecureConnectionManager.empty.initiate_key_exchange "10.0.0.1:9000" 0).1) :=
  scm_registry_invariant.2.1 SecureConnectionManager.empty "10.0.0.1:9000" 0
    scm_registry_invariant.1

/-! ### C5: `verify_hmac` totality -/

/-- C5 counterexample: `verify_hmac` is not total — a structurally invalid
tag containing a non-ASCII character makes `hmac.compare_digest` raise
`TypeError` instead of returning `False`. -/
theorem verify_hmac_raises_on_non_ascii_tag :
    MessageSecurity.verify_hmac ⟨List.replicate 32 0⟩ "hello" "é" = .error .typeError := by
  unfold MessageSecurity.verify_hmac compare_digest
  have h : pyIsAscii "é" = false := by decide
  simp [h]

/-- C5 amended: for every key, message, and ASCII tag, `verify_hmac`
returns a boolean without raising — `True` exactly when the tag equals the
recomputed one, so any mismatch yields `False`. -/
theorem verify_hmac_amended (key : List Nat) (m t : String) (h : pyIsAscii t = true) :
    MessageSecurity.verify_hmac ⟨key⟩ m t =
      .ok (MessageSecurity.create_hmac ⟨key⟩ m == t) ∧
    (MessageSecurity.create_hmac ⟨key⟩ m ≠ t →
      MessageSecurity.verify_hmac ⟨key⟩ m t = .ok false) := by
  have ha : pyIsAscii (MessageSecurity.create_hmac ⟨key⟩ m) = true := create_hmac_ascii _ _
  constructor
  · unfold MessageSecurity.verify_hmac compare_digest
    simp [ha, h]
  · intro hne
    unfold MessageSecurity.verify_hmac compare_digest
    simp [ha, h, hne]

/-- Witness for `verify_hmac_amended` at a concrete ASCII tag. -/
theorem verify_hmac_amended_witness :
    pyIsAscii "00" = true ∧
    MessageSecurity.verify_hmac ⟨List.replicate 32 1⟩ "m" "00" =
      .ok (MessageSecurity.create_hmac ⟨List.replicate 32 1⟩ "m" == "00") :=
  ⟨by decide, (verify_hmac_amended (List.replicate 32 1) "m" "00" (by decide)).1⟩

/-! ### C2: the receive loop's session lookup -/

/-- C2: the receive loop's authenticator lookup does not resolve to the
session the handshake installed.  `complete_key_exchange` keys the session
by the address string, but `handle_peer` looks it up with the SSL socket
object (server.py line 160), which misses; a tampered envelope is then
printed raw by the no-session branch — no security alert, no integrity
check.  (Had the lookup hit, the alert branch would still die on the
unassigned name `peer_addr` at line 174 and fall into the bare `except:`
that prints and logs the raw packet.) -/
theorem server_receive_lookup_mismatch :
    (SecureConnectionManager.empty.complete_key_exchange "10.0.0.1:9000" 5 0
        |>.has_secure_connection "10.0.0.1:9000") = true ∧
    (SecureConnectionManager.empty.complete_key_exchange "10.0.0.1:9000" 5 0
        |>.get_security (.sock 7)) = none ∧
    Server.handle_peer_step
        (SecureConnectionManager.empty.complete_key_exchange "10.0.0.1:9000" 5 0) 7
        "\x7b\"msg\": \"hi\", \"hmac\": \"00\"\x7d" =
      [.consolePrint "\x7b\"msg\": \"hi\", \"hmac\": \"00\"\x7d"] :=
  ⟨rfl, rfl, rfl⟩

/-! ### C3: the receive loop's cleanup -/

/-- C3: cleanup after a receive-loop exit is incomplete.  The `finally`
block closes the socket, but `peersdb.remove(peer_addr)` raises `NameError`
(the assignment of `peer_addr`, server.py line 143, is commented out), so
the peer's address stays in the peer registry and its session entry stays
in the session registry. -/
theorem server_cleanup_incomplete :
    (Server.handle_peer_cleanup
      ⟨false, ["1.2.3.4:5"], SecureConnectionManager.empty.complete_key_exchange "1.2.3.4:5" 5 0⟩
      "1.2.3.4:5").1.socketClosed = true ∧
    (Server.handle_peer_cleanup
      ⟨false, ["1.2.3.4:5"], SecureConnectionManager.empty.complete_key_exchange "1.2.3.4:5" 5 0⟩
      "1.2.3.4:5").2 = .error (.nameError "peer_addr") ∧
    (Server.handle_peer_cleanup
      ⟨false, ["1.2.3.4:5"], SecureConnectionManager.empty.complete_key_exchange "1.2.3.4:5" 5 0⟩
      "1.2.3.4:5").1.peers = ["1.2.3.4:5"] ∧
    ((Server.handle_peer_cleanup
      ⟨false, ["1.2.3.4:5"], SecureConnectionManager.empty.complete_key_exchange "1.2.3.4:5" 5 0⟩
      "1.2.3.4:5").1.mgr.has_secure_connection "1.2.3.4:5") = true :=
  ⟨rfl, rfl, rfl, rfl⟩

/-! ### C4: failed key exchange leaves the session entry behind -/

theorem initiate_dh_isSome (mgr : SecureConnectionManager) (addr : String) (r : Nat) :
    (dictGet (mgr.initiate_key_exchange addr r).1.peer_dh (.str addr)).isSome = true := by
  simp [SecureConnectionManager.initiate_key_exchange, dictGet_dictSet]

theorem complete_dh_isSome (mgr : SecureConnectionManager) (addr : String) (pk r : Nat) :
    (dictGet (mgr.complete_key_exchange addr pk r).peer_dh (.str addr)).isSome = true := by
  by_cases hd : (dictGet mgr.peer_dh (.str addr)).isSome
  · obtain ⟨dh, hdh⟩ := Option.isSome_iff_exists.mp hd
    simp [SecureConnectionManager.complete_key_exchange, hd, hdh, dictGet_dictSet]
  · simp [SecureConnectionManager.complete_key_exchange, hd, dictGet_dictSet]

/-- C4 counterexample: a malformed handshake payload makes
`Client._exchange_keys` raise (re-raised `json.JSONDecodeError`), yet the
in-progress `DiffieHellman` entry that `initiate_key_exchange` created for
the peer is still in the session registry — it is not removed. -/
theorem exchange_keys_failure_retains_entry :
    (Client.exchange_keys SecureConnectionManager.empty "1.2.3.4:5" 0 "nope").2 =
      .error .jsonDecodeError ∧
    (dictGet (Client.exchange_keys SecureConnectionManager.empty "1.2.3.4:5" 0 "nope").1.peer_dh
      (.str "1.2.3.4:5")).isSome = true :=
  ⟨rfl, rfl⟩

/-- C4 amended: whatever the peer's response, the `DiffieHellman` entry
created by `initiate_key_exchange` stays in `peer_dh` — no failure path
removes it; a response that fails to parse aborts the attempt by raising
`json.JSONDecodeError`; and a well-formed response with a wrong message
type does not abort at all — `_exchange_keys` returns normally with no
session key installed for the peer. -/
theorem exchange_keys_amended (mgr : SecureConnectionManager) (addr : String)
    (r : Nat) (resp : String) :
    (dictGet (Client.exchange_keys mgr addr r resp).1.peer_dh (.str addr)).isSome = true ∧
    (loads resp = none →
      (Client.exchange_keys mgr addr r resp).2 = .error .jsonDecodeError) ∧
    (∀ (l : List (String × Json)) (ts : String),
      loads resp = some (.obj l) → objGet l "type" = some (.str ts) →
      ts ≠ "DH_KEY_EXCHANGE" →
      (Client.exchange_keys mgr addr r resp).2 = .ok () ∧
      (Client.exchange_keys mgr addr r resp).1.peer_keys = mgr.peer_keys) := by
  refine ⟨?_, ?_, ?_⟩
  · unfold Client.exchange_keys
    split
    · exact initiate_dh_isSome mgr addr r
    all_goals first
      | exact initiate_dh_isSome mgr addr r
      | (split
         <;> first
           | exact initiate_dh_isSome mgr addr r
           | (split
              <;> first
                | exact initiate_dh_isSome mgr addr r
                | (split
                   <;> first
                     | exact initiate_dh_isSome mgr addr r
                     | exact complete_dh_isSome _ addr _ 0
                     | (split
                        <;> first
                          | exact initiate_dh_isSome mgr addr r
                          | exact complete_dh_isSome _ addr _ 0))))
  · intro hl
    unfold Client.exchange_keys
    rw [hl]
  · intro l ts hl ht hne
    unfold Client.exchange_keys
    rw [hl]
    simp [ht, hne, SecureConnectionManager.initiate_key_exchange]

/-- Witness for `exchange_keys_amended`: the parse-failure wing at the
response `"nope"` and the wrong-type wing at a `type: "X"` response. -/
theorem exchange_keys_amended_witness :
    (Client.exchange_keys SecureConnectionManager.empty "9.9.9.9:1" 0 "nope").2 =
      .error .jsonDecodeError ∧
    (Client.exchange_keys SecureConnectionManager.empty "9.9.9.9:1" 0
      "\x7b\"type\": \"X\"\x7d").2 = .ok () :=
  ⟨(exchange_keys_amended SecureConnectionManager.empty "9.9.9.9:1" 0 "nope").2.1 rfl,
   ((exchange_keys_amended SecureConnectionManager.empty "9.9.9.9:1" 0
      "\x7b\"type\": \"X\"\x7d").2.2 [("type", .str "X")] "X" rfl rfl
      (by decide)).1⟩


/-! ### C6/C7: JSON escape/parse inverse lemmas -/

theorem escLookahead_surrogate (hi lo : Nat) (hhi1 : 0xd800 ≤ hi) (hhi2 : hi < 0xdc00)
    (hlo1 : 0xdc00 ≤ lo) (hlo2 : lo ≤ 0xdfff) (t : List Char) :
    escLookahead ('u' :: toHex4 hi ++ '\\' :: 'u' :: toHex4 lo ++ t) =
      some (0x10000 + (hi - 0xd800) * 0x400 + (lo - 0xdc00), t) := by
  have h1 : hi < 65536 := by omega
  have h2 : lo < 65536 := by omega
  simp only [toHex4, List.cons_append, List.nil_append, List.append_assoc, escLookahead,
    parseHex4_toHex4 _ h1, parseHex4_toHex4 _ h2]
  rw [if_pos (by constructor <;> omega), if_pos (by constructor <;> omega)]

/-- Every character either passes through `escapeChar` unescaped (and then
is no special character for the scanner), or escapes to `\\` followed by a
body that `escLookahead` decodes back to exactly that character's code. -/
theorem escapeChar_plain_or_esc (c : Char) :
    (escapeChar c = [c] ∧ c ≠ '"' ∧ c ≠ '\\' ∧ ¬ c.toNat < 0x20) ∨
    (∃ body, escapeChar c = '\\' :: body ∧
      ∀ t, escLookahead (body ++ t) = some (c.toNat, t)) := by
  have hvalid : c.toNat < 0xd800 ∨ (0xdfff < c.toNat ∧ c.toNat < 0x110000) := c.valid
  by_cases h1 : c = '"'
  · exact .inr ⟨['"'], by simp [escapeChar, h1], fun t => by subst h1; rfl⟩
  by_cases h2 : c = '\\'
  · exact .inr ⟨['\\'], by simp [escapeChar, h1, h2], fun t => by subst h2; rfl⟩
  by_cases h3 : c.toNat = 8
  · have hc : c = Char.ofNat 8 := by rw [← Char.ofNat_toNat c, h3]
    exact .inr ⟨['b'], by simp [escapeChar, h1, h2, h3], fun t => by subst hc; rfl⟩
  by_cases h4 : c.toNat = 9
  · have hc : c = '\t' := by rw [← Char.ofNat_toNat c, h4]
    exact .inr ⟨['t'], by simp [escapeChar, h1, h2, h3, h4], fun t => by subst hc; rfl⟩
  by_cases h5 : c.toNat = 10
  · have hc : c = '\n' := by rw [← Char.ofNat_toNat c, h5]
    exact .inr ⟨['n'], by simp [escapeChar, h1, h2, h3, h4, h5], fun t => by subst hc; rfl⟩
  by_cases h6 : c.toNat = 12
  · have hc : c = Char.ofNat 12 := by rw [← Char.ofNat_toNat c, h6]
    exact .inr ⟨['f'], by simp [escapeChar, h1, h2, h3, h4, h5, h6], fun t => by subst hc; rfl⟩
  by_cases h7 : c.toNat = 13
  · have hc : c = Char.ofNat 13 := by rw [← Char.ofNat_toNat c, h7]
    exact .inr ⟨['r'], by simp [escapeChar, h1, h2, h3, h4, h5, h6, h7], fun t => by subst hc; rfl⟩
  by_cases h8 : c.toNat < 0x20
  · refine .inr ⟨'u' :: toHex4 c.toNat, by simp [escapeChar, h1, h2, h3, h4, h5, h6, h7, h8], ?_⟩
    intro t
    have hlt : c.toNat < 65536 := by omega
    simp only [toHex4, List.cons_append, List.nil_append, escLookahead,
      parseHex4_toHex4 c.toNat hlt]
    rw [if_neg (by omega)]
  by_cases h9 : c.toNat < 0x7f
  · exact .inl ⟨by simp [escapeChar, h1, h2, h3, h4, h5, h6, h7, h8, h9], h1, h2, h8⟩
  by_cases h10 : c.toNat < 0x10000
  · refine .inr ⟨'u' :: toHex4 c.toNat,
      by simp [escapeChar, h1, h2, h3, h4, h5, h6, h7, h8, h9, h10], ?_⟩
    intro t
    simp only [toHex4, List.cons_append, List.nil_append, escLookahead,
      parseHex4_toHex4 c.toNat h10]
    rw [if_neg (by omega)]
  · refine .inr ⟨'u' :: toHex4 (0xd800 + (c.toNat - 0x10000) / 0x400) ++
        '\\' :: 'u' :: toHex4 (0xdc00 + (c.toNat - 0x10000) % 0x400),
      by simp [escapeChar, h1, h2, h3, h4, h5, h6, h7, h8, h9, h10], ?_⟩
    intro t
    have hv : c.toNat < 0x110000 := by omega
    have hs := escLookahead_surrogate (0xd800 + (c.toNat - 0x10000) / 0x400)
      (0xdc00 + (c.toNat - 0x10000) % 0x400) (by omega) (by omega) (by omega) (by omega) t
    rw [show (0x10000 + (0xd800 + (c.toNat - 0x10000) / 0x400 - 0xd800) * 0x400 +
        (0xdc00 + (c.toNat - 0x10000) % 0x400 - 0xdc00)) = c.toNat from by omega] at hs
    simpa [List.append_assoc] using hs

theorem escapeList_nil : escapeList [] = [] := rfl

theorem escapeList_cons (c : Char) (cs : List Char) :
    escapeList (c :: cs) = escapeChar c ++ escapeList cs := rfl

/-- The scanner inverts `json.dumps` string escaping: given enough fuel, it
consumes the escaped characters up to the closing quote and returns exactly
the original characters' codes. -/
theorem psb_escapeList (cs : List Char) : ∀ (r : List Char) (fuel : Nat),
    (escapeList cs ++ '"' :: r).length ≤ fuel →
    psb fuel (escapeList cs ++ '"' :: r) = some (cs.map Char.toNat, r) := by
  induction cs with
  | nil =>
    intro r fuel h
    rw [escapeList_nil, List.nil_append] at h ⊢
    cases fuel with
    | zero => simp at h
    | succ f => simp [psb]
  | cons c cs ih =>
    intro r fuel h
    rw [escapeList_cons, List.append_assoc] at h ⊢
    rcases escapeChar_plain_or_esc c with ⟨hpl, h1, h2, h3⟩ | ⟨body, hesc, hlook⟩
    · rw [hpl, List.singleton_append] at h ⊢
      cases fuel with
      | zero => simp at h
      | succ f =>
        simp only [psb]
        rw [if_neg h1, if_neg h2, if_neg h3,
          ih r f (by simp only [List.length_cons, List.length_append] at h ⊢; omega)]
        simp
    · rw [hesc, List.cons_append] at h ⊢
      cases fuel with
      | zero => simp at h
      | succ f =>
        simp only [psb]
        rw [if_neg (by decide : ¬ ('\\' : Char) = '"')]
        simp only [hlook, ih r f (by
          simp only [List.length_cons, List.length_append] at h ⊢
          omega)]
        simp

theorem parseStringBody_escapeList (cs r : List Char) :
    parseStringBody (escapeList cs ++ '"' :: r) = some (cs.map Char.toNat, r) :=
  psb_escapeList cs r _ (Nat.le_refl _)

/-- Rebuilding the decoded code units of escaped characters gives back the
original string: character codes are scalar values, never surrogates. -/
theorem strOfCodes_map_toNat (cs : List Char) :
    strOfCodes (cs.map Char.toNat) = .str (String.mk cs) := by
  have hmap : cs.map (fun c => Char.ofNat c.toNat) = cs := by
    induction cs with
    | nil => rfl
    | cons c cs ih => simp [Char.ofNat_toNat, ih]
  have hall : (cs.map Char.toNat).all (fun n => n < 0xd800 || 0xdfff < n) = true := by
    rw [List.all_eq_true]
    intro n hn
    rw [List.mem_map] at hn
    obtain ⟨c, _, rfl⟩ := hn
    have hv : c.toNat < 0xd800 ∨ (0xdfff < c.toNat ∧ c.toNat < 0x110000) := c.valid
    simp only [Bool.or_eq_true, decide_eq_true_eq]
    omega
  unfold strOfCodes
  rw [if_pos hall, List.map_map]
  show Json.str (String.mk (List.map (fun c => Char.ofNat c.toNat) cs)) = _
  rw [hmap]

/-- A leading space then a quoted escaped string parses to that string. -/
theorem parseValue_strVal (fuel : Nat) (cs : List Char) (r : List Char) :
    parseValue (fuel + 1) (' ' :: '"' :: (escapeList cs ++ '"' :: r)) =
      some (.str (String.mk cs), r) := by
  have hstep : parseValue (fuel + 1) (' ' :: '"' :: (escapeList cs ++ '"' :: r)) =
      (match parseStringBody (escapeList cs ++ '"' :: r) with
       | some (cs2, r2) => some (strOfCodes cs2, r2)
       | none => none) := rfl
  rw [hstep, parseStringBody_escapeList]
  show some (strOfCodes (cs.map Char.toNat), r) = _
  rw [strOfCodes_map_toNat]

/-- The trailing `"hmac"` member of a dumped envelope parses back. -/
theorem parseMembers_hmacMember (fuel : Nat) (cs r : List Char) :
    parseMembers (fuel + 2)
      ('"' :: 'h' :: 'm' :: 'a' :: 'c' :: '"' :: ':' :: ' ' :: '"' ::
        (escapeList cs ++ '"' :: rbrace :: r)) =
      some ([("hmac", .str (String.mk cs))], r) := by
  have hstep : parseMembers (fuel + 2)
      ('"' :: 'h' :: 'm' :: 'a' :: 'c' :: '"' :: ':' :: ' ' :: '"' ::
        (escapeList cs ++ '"' :: rbrace :: r)) =
      (match parseValue (fuel + 1) (' ' :: '"' :: (escapeList cs ++ '"' :: rbrace :: r)) with
       | some (v, r3) =>
         match skipWs r3 with
         | ',' :: r4 =>
           match parseMembers (fuel + 1) (skipWs r4) with
           | some (ms, r5) => some (("hmac", v) :: ms, r5)
           | none => none
         | c5 :: r5 => if c5 = rbrace then some ([("hmac", v)], r5) else none
         | [] => none
       | none => none) := rfl
  rw [hstep, parseValue_strVal]
  rfl

/-- The full member list `"msg": …, "hmac": …` of a dumped envelope. -/
theorem parseMembers_msgMember (fuel : Nat) (csm csh r : List Char) :
    parseMembers (fuel + 3)
      ('"' :: 'm' :: 's' :: 'g' :: '"' :: ':' :: ' ' :: '"' ::
        (escapeList csm ++ '"' :: ',' :: ' ' :: '"' :: 'h' :: 'm' :: 'a' :: 'c' :: '"' ::
          ':' :: ' ' :: '"' :: (escapeList csh ++ '"' :: rbrace :: r))) =
      some ([("msg", .str (String.mk csm)), ("hmac", .str (String.mk csh))], r) := by
  have hstep : parseMembers (fuel + 3)
      ('"' :: 'm' :: 's' :: 'g' :: '"' :: ':' :: ' ' :: '"' ::
        (escapeList csm ++ '"' :: ',' :: ' ' :: '"' :: 'h' :: 'm' :: 'a' :: 'c' :: '"' ::
          ':' :: ' ' :: '"' :: (escapeList csh ++ '"' :: rbrace :: r))) =
      (match parseValue (fuel + 2)
          (' ' :: '"' :: (escapeList csm ++ '"' :: ',' :: ' ' :: '"' :: 'h' :: 'm' :: 'a' ::
            'c' :: '"' :: ':' :: ' ' :: '"' :: (escapeList csh ++ '"' :: rbrace :: r))) with
       | some (v, r3) =>
         match skipWs r3 with
         | ',' :: r4 =>
           match parseMembers (fuel + 2) (skipWs r4) with
           | some (ms, r5) => some (("msg", v) :: ms, r5)
           | none => none
         | c5 :: r5 => if c5 = rbrace then some ([("msg", v)], r5) else none
         | [] => none
       | none => none) := rfl
  rw [hstep]
  rw [show (' ' :: '"' :: (escapeList csm ++ '"' :: ',' :: ' ' :: '"' :: 'h' :: 'm' :: 'a' ::
      'c' :: '"' :: ':' :: ' ' :: '"' :: (escapeList csh ++ '"' :: rbrace :: r))) =
    (' ' :: '"' :: (escapeList csm ++ '"' :: (',' :: ' ' :: '"' :: 'h' :: 'm' :: 'a' ::
      'c' :: '"' :: ':' :: ' ' :: '"' :: (escapeList csh ++ '"' :: rbrace :: r)))) from rfl]
  rw [parseValue_strVal (fuel + 1)]
  show (match parseMembers (fuel + 2)
      ('"' :: 'h' :: 'm' :: 'a' :: 'c' :: '"' :: ':' :: ' ' :: '"' ::
        (escapeList csh ++ '"' :: rbrace :: r)) with
    | some (ms, r5) => some ((("msg" : String), Json.str (String.mk csm)) :: ms, r5)
    | none => none) = _
  rw [parseMembers_hmacMember]

/-- A dumped envelope parses to exactly its two-member object. -/
theorem parseValue_envelope (fuel : Nat) (csm csh r : List Char) :
    parseValue (fuel + 4)
      (lbrace :: '"' :: 'm' :: 's' :: 'g' :: '"' :: ':' :: ' ' :: '"' ::
        (escapeList csm ++ '"' :: ',' :: ' ' :: '"' :: 'h' :: 'm' :: 'a' :: 'c' :: '"' ::
          ':' :: ' ' :: '"' :: (escapeList csh ++ '"' :: rbrace :: r))) =
      some (.obj [("msg", .str (String.mk csm)), ("hmac", .str (String.mk csh))], r) := by
  have hstep : parseValue (fuel + 4)
      (lbrace :: '"' :: 'm' :: 's' :: 'g' :: '"' :: ':' :: ' ' :: '"' ::
        (escapeList csm ++ '"' :: ',' :: ' ' :: '"' :: 'h' :: 'm' :: 'a' :: 'c' :: '"' ::
          ':' :: ' ' :: '"' :: (escapeList csh ++ '"' :: rbrace :: r))) =
      (match parseMembers (fuel + 3)
          ('"' :: 'm' :: 's' :: 'g' :: '"' :: ':' :: ' ' :: '"' ::
            (escapeList csm ++ '"' :: ',' :: ' ' :: '"' :: 'h' :: 'm' :: 'a' :: 'c' :: '"' ::
              ':' :: ' ' :: '"' :: (escapeList csh ++ '"' :: rbrace :: r))) with
       | some (ms, r2) => some (.obj ms, r2)
       | none => none) := rfl
  rw [hstep, parseMembers_msgMember]

/-- `json.loads` inverts `json.dumps` on the envelope dictionary. -/
theorem loads_dumpsEnvelope (m mac : String) :
    loads (dumpsEnvelope m mac) =
      some (.obj [("msg", .str m), ("hmac", .str mac)]) := by
  have hdata : (dumpsEnvelope m mac).data =
      lbrace :: '"' :: 'm' :: 's' :: 'g' :: '"' :: ':' :: ' ' :: '"' ::
        (escapeList m.data ++ '"' :: ',' :: ' ' :: '"' :: 'h' :: 'm' :: 'a' :: 'c' :: '"' ::
          ':' :: ' ' :: '"' :: (escapeList mac.data ++ '"' :: rbrace :: [])) := by
    simp only [dumpsEnvelope, String.data_append, List.append_assoc]
    rfl
  have hlen : (dumpsEnvelope m mac).length =
      (escapeList m.data).length + (escapeList mac.data).length + 23 := by
    show (dumpsEnvelope m mac).data.length = _
    rw [hdata]
    simp only [List.length_cons, List.length_append, List.length_nil]
    omega
  unfold loads
  rw [show (dumpsEnvelope m mac).length + 1 =
    ((escapeList m.data).length + (escapeList mac.data).length + 20) + 4 from by
      rw [hlen]]
  rw [hdata, parseValue_envelope]
  rfl

/-- C6: envelope round-trip.  For every key and every message,
`unpackage_message (package_message m)` parses the envelope back and the
recomputed HMAC verifies, yielding `(m, True)`. -/
theorem package_unpackage_roundtrip (key : List Nat) (m : String) :
    MessageSecurity.unpackage_message ⟨key⟩ (MessageSecurity.package_message ⟨key⟩ m) =
      .ok (some m, true) := by
  unfold MessageSecurity.package_message MessageSecurity.unpackage_message
  rw [loads_dumpsEnvelope]
  show (match MessageSecurity.verify_hmac ⟨key⟩ m (MessageSecurity.create_hmac ⟨key⟩ m) with
    | .ok b => Except.ok (some m, b)
    | .error e => .error e) = .ok (some m, true)
  have hv : MessageSecurity.verify_hmac ⟨key⟩ m (MessageSecurity.create_hmac ⟨key⟩ m) =
      .ok true := by
    unfold MessageSecurity.verify_hmac compare_digest
    simp [create_hmac_ascii]
  rw [hv]

/-- C7 counterexample: an input that is valid JSON but not an object makes
`unpackage_message` raise `TypeError` at the `data["msg"]` subscript (only
`JSONDecodeError` and `KeyError` are caught) instead of returning
`(None, False)`. -/
theorem unpackage_non_object_raises :
    MessageSecurity.unpackage_message ⟨List.replicate 32 2⟩ "[]" = .error .typeError := rfl

/-- C7 amended: an input that fails to parse as JSON, or parses to an
object missing the `msg` or `hmac` key, yields `(None, False)` without
raising; an object carrying a string `msg` and an (ASCII) string `hmac`
yields the message together with the verification result.  The uncaught
raising cases: a JSON value that is not an object raises `TypeError` (see
the counterexample); a `msg` string containing a lone surrogate raises
`UnicodeEncodeError` in `create_hmac`; an `hmac` string containing a lone
surrogate (hence non-ASCII) raises `TypeError` in `compare_digest`. -/
theorem unpackage_amended (key : List Nat) (s : String) :
    (loads s = none →
      MessageSecurity.unpackage_message ⟨key⟩ s = .ok (none, false)) ∧
    (∀ l, loads s = some (.obj l) → objGet l "msg" = none →
      MessageSecurity.unpackage_message ⟨key⟩ s = .ok (none, false)) ∧
    (∀ l mv, loads s = some (.obj l) → objGet l "msg" = some mv →
      objGet l "hmac" = none →
      MessageSecurity.unpackage_message ⟨key⟩ s = .ok (none, false)) ∧
    (∀ l m h, loads s = some (.obj l) → objGet l "msg" = some (.str m) →
      objGet l "hmac" = some (.str h) → pyIsAscii h = true →
      MessageSecurity.unpackage_message ⟨key⟩ s =
        .ok (some m, MessageSecurity.create_hmac ⟨key⟩ m == h)) ∧
    (∀ l codes hv, loads s = some (.obj l) → objGet l "msg" = some (.surr codes) →
      objGet l "hmac" = some hv →
      MessageSecurity.unpackage_message ⟨key⟩ s = .error .unicodeEncodeError) ∧
    (∀ l m codes, loads s = some (.obj l) → objGet l "msg" = some (.str m) →
      objGet l "hmac" = some (.surr codes) →
      MessageSecurity.unpackage_message ⟨key⟩ s = .error .typeError) := by
  refine ⟨?_, ?_, ?_, ?_, ?_, ?_⟩
  · intro hl
    unfold MessageSecurity.unpackage_message
    rw [hl]
  · intro l hl hm
    unfold MessageSecurity.unpackage_message
    rw [hl]
    simp only [hm]
  · intro l mv hl hm hh
    unfold MessageSecurity.unpackage_message
    rw [hl]
    simp only [hm, hh]
  · intro l m h hl hm hh hascii
    unfold MessageSecurity.unpackage_message
    rw [hl]
    simp only [hm, hh]
    have hv : MessageSecurity.verify_hmac ⟨key⟩ m h =
        .ok (MessageSecurity.create_hmac ⟨key⟩ m == h) := by
      unfold MessageSecurity.verify_hmac compare_digest
      simp [create_hmac_ascii, hascii]
    rw [hv]
  · intro l codes hv hl hm hh
    unfold MessageSecurity.unpackage_message
    rw [hl]
    simp only [hm, hh]
  · intro l m codes hl hm hh
    unfold MessageSecurity.unpackage_message
    rw [hl]
    simp only [hm, hh]

/-- Witness for `unpackage_amended`: the parse-failure wing at `"xx"`, the
verified-envelope wing at a well-formed envelope, and the two raising wings
at envelopes carrying a lone-surrogate `msg` and `hmac` respectively. -/
theorem unpackage_amended_witness :
    MessageSecurity.unpackage_message ⟨List.replicate 32 3⟩ "xx" = .ok (none, false) ∧
    MessageSecurity.unpackage_message ⟨List.replicate 32 3⟩
        "\x7b\"msg\": \"a\", \"hmac\": \"00\"\x7d" =
      .ok (some "a", MessageSecurity.create_hmac ⟨List.replicate 32 3⟩ "a" == "00") ∧
    MessageSecurity.unpackage_message ⟨List.replicate 32 3⟩
        "\x7b\"msg\": \"\\ud800\", \"hmac\": \"00\"\x7d" = .error .unicodeEncodeError ∧
    MessageSecurity.unpackage_message ⟨List.replicate 32 3⟩
        "\x7b\"msg\": \"ok\", \"hmac\": \"\\ud800\"\x7d" = .error .typeError :=
  ⟨(unpackage_amended (List.replicate 32 3) "xx").1 rfl,
   (unpackage_amended (List.replicate 32 3)
      "\x7b\"msg\": \"a\", \"hmac\": \"00\"\x7d").2.2.2.1
     [("msg", .str "a"), ("hmac", .str "00")] "a" "00" rfl rfl rfl (by decide),
   (unpackage_amended (List.replicate 32 3)
      "\x7b\"msg\": \"\\ud800\", \"hmac\": \"00\"\x7d").2.2.2.2.1
     [("msg", .surr [55296]), ("hmac", .str "00")] [55296] (.str "00") rfl rfl rfl,
   (unpackage_amended (List.replicate 32 3)
      "\x7b\"msg\": \"ok\", \"hmac\": \"\\ud800\"\x7d").2.2.2.2.2
     [("msg", .str "ok"), ("hmac", .surr [55296])] "ok" [55296] rfl rfl rfl⟩
